import Mathlib

/-!
Shallow embedding of the Socket.io chat server (`server.js`).

The server keeps five in-memory registries, all JavaScript `Map`s keyed by
strings: `users` (socketId -> user data), `rooms` (roomId -> room data),
`messages` (roomId -> messages array), `typingUsers` (roomId -> Set of
typing usernames) and `readReceipts` (messageId -> Set of socket ids).
A JavaScript `Map` is modelled as an insertion-ordered association list;
a JavaScript `Set` as an insertion-ordered duplicate-free list.

Each socket event handler is translated to a pure function from the server
state and the event payload to the new state together with the list of
emitted outbound events.  Nondeterministic inputs of the real system
(socket ids, `uuidv4()` results) are threaded in as event fields;
wall-clock timestamps are not modelled.
-/

namespace SocketChat

/-- JS `Map.get`: value of the first entry with the given key. -/
def mapGet {α : Type} (m : List (String × α)) (k : String) : Option α :=
  match m with
  | [] => none
  | (k2, v) :: rest => if k2 = k then some v else mapGet rest k

/-- JS `Map.set`: update the value in place if the key is present, else
append a new entry (a `Map` keeps insertion order). -/
def mapSet {α : Type} (m : List (String × α)) (k : String) (v : α) :
    List (String × α) :=
  match m with
  | [] => [(k, v)]
  | (k2, v2) :: rest =>
      if k2 = k then (k, v) :: rest else (k2, v2) :: mapSet rest k v

/-- JS `Map.delete`: remove the entry with the given key, if any. -/
def mapDelete {α : Type} (m : List (String × α)) (k : String) :
    List (String × α) :=
  match m with
  | [] => []
  | (k2, v2) :: rest =>
      if k2 = k then rest else (k2, v2) :: mapDelete rest k

/-- JS `Map.has`. -/
def mapHas {α : Type} (m : List (String × α)) (k : String) : Bool :=
  (mapGet m k).isSome

/-- JS `Array.from(m.values())` on a `Map`: values in insertion order. -/
def mapValues {α : Type} (m : List (String × α)) : List α :=
  m.map (fun p => p.2)

/-- JS `Set.add`: no-op when the element is present, else append. -/
def setAdd (s : List String) (x : String) : List String :=
  if x ∈ s then s else s ++ [x]

/-- JS `Set.delete`: remove the element from the set. -/
def setDelete (s : List String) (x : String) : List String :=
  s.filter (fun y => y ≠ x)

/-- JS `arr.slice(-n)`: the last `n` elements (the whole array when it is
shorter than `n`). -/
def sliceLast {α : Type} (n : Nat) (l : List α) : List α :=
  l.drop (l.length - n)

/-- User data stored in the `users` map by the `user_join` handler
(the `joinedAt` wall-clock timestamp is not modelled). -/
structure User where
  id : String
  username : String
  avatar : Option String
  currentRoom : String
  status : String
deriving Repr, DecidableEq

/-- Room data stored in the `rooms` map (the `createdAt` timestamp is not
modelled; the default room carries no `createdBy`/`isPrivate` fields). -/
structure Room where
  id : String
  name : String
  createdBy : Option String
  isPrivate : Option Bool
deriving Repr, DecidableEq

/-- A stored chat message.  Text messages carry a body and an empty
`readBy` array and no `fileData`; file messages carry `fileData` and
neither body nor `readBy` (the `timestamp` field is not modelled).
`reactions` is the JS object mapping reaction kind to the array of
reacting usernames. -/
structure Message where
  id : String
  sender : String
  senderId : String
  message : Option String
  room : String
  type : String
  reactions : List (String × List String)
  readBy : Option (List String)
  fileData : Option String
deriving Repr, DecidableEq

/-- The five server-side registries. -/
structure ServerState where
  users : List (String × User)
  rooms : List (String × Room)
  messages : List (String × List Message)
  typingUsers : List (String × List String)
  readReceipts : List (String × List String)
deriving Repr, DecidableEq

/-- `const DEFAULT_ROOM = 'global'`. -/
def DEFAULT_ROOM : String := "global"

/-- State at process start: the default room with its empty log and empty
typing set, no users, no read receipts. -/
def initialState : ServerState :=
  { users := []
    rooms := [(DEFAULT_ROOM,
      { id := DEFAULT_ROOM, name := "Global Chat",
        createdBy := none, isPrivate := none })]
    messages := [(DEFAULT_ROOM, [])]
    typingUsers := [(DEFAULT_ROOM, [])]
    readReceipts := [] }

/-- Client-to-server events.  `sid` is the socket id of the sender;
`mid`/`rid` fields stand for the `uuidv4()` value generated inside the
handler.  `room` fields are the payload's room after the `= DEFAULT_ROOM`
destructuring default has been applied. -/
inductive Event where
  | user_join (sid : String) (username : String) (avatar : Option String)
  | send_message (sid : String) (mid : String) (message : String) (room : String)
  | typing (sid : String) (isTyping : Bool) (room : String)
  | private_message (sid : String) (mid : String) (toSid : String) (message : String)
  | add_reaction (sid : String) (messageId : String) (reaction : String) (room : String)
  | mark_as_read (sid : String) (messageId : String) (room : String)
  | join_room (sid : String) (roomId : String)
  | create_room (sid : String) (rid : String) (name : String) (isPrivate : Bool)
  | file_uploaded (sid : String) (mid : String) (fileData : String) (room : String)
  | update_status (sid : String) (status : String)
  | disconnect (sid : String)
deriving Repr, DecidableEq

/-- The socket id a given event originates from. -/
def Event.sid : Event → String
  | .user_join s _ _ => s
  | .send_message s _ _ _ => s
  | .typing s _ _ => s
  | .private_message s _ _ _ => s
  | .add_reaction s _ _ _ => s
  | .mark_as_read s _ _ => s
  | .join_room s _ => s
  | .create_room s _ _ _ => s
  | .file_uploaded s _ _ _ => s
  | .update_status s _ => s
  | .disconnect s => s

/-- Whether the event is the `user_join` registration event. -/
def Event.isUserJoin : Event → Bool
  | .user_join _ _ _ => true
  | _ => false

/-- Whether the event is a `file_uploaded` notification. -/
def Event.isFileUploaded : Event → Bool
  | .file_uploaded _ _ _ _ => true
  | _ => false

/-- Delivery target of an emitted event: `io.emit` (all), `io.to(room)`,
`io.to(room).except(sid)`, or `socket.emit`/`socket.to(sid)` (one socket). -/
inductive Target where
  | all
  | room (roomId : String)
  | roomExcept (roomId : String) (sid : String)
  | sock (sid : String)
deriving Repr, DecidableEq

/-- Server-to-client events with their payloads. -/
inductive OutEvent where
  | user_list (l : List User)
  | user_joined (u : User) (room : String)
  | room_list (l : List Room)
  | message_history (room : String) (msgs : List Message)
  | receive_message (m : Message)
  | typing_users (users : List String) (room : String)
  | private_message (mid : String) (sender : String) (senderId : String)
      (message : String) (isSent : Bool)
  | message_updated (m : Message)
  | read_receipt (messageId : String) (userId : String) (username : String)
  | user_joined_room (u : User) (room : String)
  | room_created (r : Room)
  | user_left (u : User) (room : String)
  | user_status_changed (userId : String) (username : String) (status : String)
deriving Repr, DecidableEq

/-- An emission: a delivery target paired with the outbound event. -/
abbrev Emission := Target × OutEvent

/-- Helper `getUserInfo`: `users.get(socketId) || null`. -/
def getUserInfo (s : ServerState) (sid : String) : Option User :=
  mapGet s.users sid

/-- Helper `broadcastToRoom(roomId, event, data, excludeSocketId)`. -/
def broadcastToRoom (roomId : String) (ev : OutEvent)
    (excludeSocketId : Option String := none) : Emission :=
  match excludeSocketId with
  | some sid => (Target.roomExcept roomId sid, ev)
  | none => (Target.room roomId, ev)

/-- The message record built by the `send_message` handler. -/
def textMessage (u : User) (sid mid body room : String) : Message :=
  { id := mid, sender := u.username, senderId := sid,
    message := some body, room := room, type := "text",
    reactions := [], readBy := some [], fileData := none }

/-- The message record built by the `file_uploaded` handler (note: it has
no `readBy` field and no text body). -/
def fileMessage (u : User) (sid mid fileData room : String) : Message :=
  { id := mid, sender := u.username, senderId := sid,
    message := none, room := room, type := "file",
    reactions := [], readBy := none, fileData := some fileData }

/-- `user_join` handler: store the user (joining the default room), emit
the user list to everyone, `user_joined` to the default room, and the room
list and last-50 default-room history to the joiner.  No check for an
already-bound identity is performed: `users.set` overwrites. -/
def handleUserJoin (s : ServerState) (sid username : String)
    (avatar : Option String) : ServerState × List Emission :=
  let u : User :=
    { id := sid, username := username, avatar := avatar,
      currentRoom := DEFAULT_ROOM, status := "online" }
  let users2 := mapSet s.users sid u
  let roomMessages := (mapGet s.messages DEFAULT_ROOM).getD []
  ({ s with users := users2 },
   [ (Target.all, OutEvent.user_list (mapValues users2)),
     broadcastToRoom DEFAULT_ROOM (OutEvent.user_joined u DEFAULT_ROOM),
     (Target.sock sid, OutEvent.room_list (mapValues s.rooms)),
     (Target.sock sid,
       OutEvent.message_history DEFAULT_ROOM (sliceLast 50 roomMessages)) ])

/-- `send_message` handler: no-op when the sender has no identity;
otherwise append the text message to the room's log (creating the log on
first use), shift the oldest message off when the log exceeds 100, and
broadcast `receive_message` to the room. -/
def handleSendMessage (s : ServerState) (sid mid body room : String) :
    ServerState × List Emission :=
  match getUserInfo s sid with
  | none => (s, [])
  | some u =>
      let msg := textMessage u sid mid body room
      let log := (mapGet s.messages room).getD []
      let log2 := log ++ [msg]
      let log3 := if log2.length > 100 then log2.tail else log2
      ({ s with messages := mapSet s.messages room log3 },
       [ broadcastToRoom room (OutEvent.receive_message msg) ])

/-- `typing` handler: add or remove the sender's username in the room's
typing set (creating the set on first use) and broadcast the resulting
set to the room, excluding the sender. -/
def handleTyping (s : ServerState) (sid : String) (isTyping : Bool)
    (room : String) : ServerState × List Emission :=
  match getUserInfo s sid with
  | none => (s, [])
  | some u =>
      let roomTyping := (mapGet s.typingUsers room).getD []
      let roomTyping2 :=
        if isTyping then setAdd roomTyping u.username
        else setDelete roomTyping u.username
      ({ s with typingUsers := mapSet s.typingUsers room roomTyping2 },
       [ broadcastToRoom room
           (OutEvent.typing_users roomTyping2 room) (some sid) ])

/-- `private_message` handler: nothing is stored; the message goes to the
`to` socket and an `isSent` copy echoes back to the sender. -/
def handlePrivateMessage (s : ServerState) (sid mid toSid body : String) :
    ServerState × List Emission :=
  match getUserInfo s sid with
  | none => (s, [])
  | some u =>
      (s, [ (Target.sock toSid,
              OutEvent.private_message mid u.username sid body false),
            (Target.sock sid,
              OutEvent.private_message mid u.username sid body true) ])

/-- The reaction toggle performed by `add_reaction` on one reactor array:
`indexOf`/`splice` removes the username when present, `push` appends it
when absent. -/
def toggleReaction (reactors : List String) (username : String) :
    List String :=
  if username ∈ reactors then reactors.erase username
  else reactors ++ [username]

/-- Replace the first message with the given id (the message object found
by `Array.find` is mutated in place in the source). -/
def replaceFirst (l : List Message) (mid : String) (m2 : Message) :
    List Message :=
  match l with
  | [] => []
  | x :: xs => if x.id = mid then m2 :: xs else x :: replaceFirst xs mid m2

/-- `add_reaction` handler: no-op without identity, without a log for the
room, or without a message with the given id; otherwise toggle the
sender's username in the reaction's reactor array (initialising it to `[]`
first) and broadcast `message_updated` to the room. -/
def handleAddReaction (s : ServerState) (sid messageId reaction room : String) :
    ServerState × List Emission :=
  match getUserInfo s sid with
  | none => (s, [])
  | some u =>
      match mapGet s.messages room with
      | none => (s, [])
      | some roomMessages =>
          match roomMessages.find? (fun m => m.id == messageId) with
          | none => (s, [])
          | some msg =>
              let cur := (mapGet msg.reactions reaction).getD []
              let msg2 := { msg with
                reactions :=
                  mapSet msg.reactions reaction (toggleReaction cur u.username) }
              ({ s with messages :=
                  mapSet s.messages room (replaceFirst roomMessages messageId msg2) },
               [ broadcastToRoom room (OutEvent.message_updated msg2) ])

/-- `mark_as_read` handler: no-op without identity; otherwise add the
sender's socket id to the global `readReceipts` set for the message id
(creating the set on first use) and broadcast `read_receipt` to the room.
No message-existence check is performed and no message is modified. -/
def handleMarkAsRead (s : ServerState) (sid messageId room : String) :
    ServerState × List Emission :=
  match getUserInfo s sid with
  | none => (s, [])
  | some u =>
      let rr := (mapGet s.readReceipts messageId).getD []
      ({ s with readReceipts := mapSet s.readReceipts messageId (setAdd rr sid) },
       [ broadcastToRoom room
           (OutEvent.read_receipt messageId sid u.username) ])

/-- `join_room` handler: no-op without identity; otherwise move the user's
`currentRoom` to the given room id (no existence check), send the room's
last-50 history to the caller and broadcast `user_joined_room` to the new
room. -/
def handleJoinRoom (s : ServerState) (sid roomId : String) :
    ServerState × List Emission :=
  match getUserInfo s sid with
  | none => (s, [])
  | some u =>
      let u2 := { u with currentRoom := roomId }
      let roomMessages := (mapGet s.messages roomId).getD []
      ({ s with users := mapSet s.users sid u2 },
       [ (Target.sock sid,
           OutEvent.message_history roomId (sliceLast 50 roomMessages)),
         broadcastToRoom roomId (OutEvent.user_joined_room u2 roomId) ])

/-- `create_room` handler: no-op without identity; otherwise register the
fresh room, initialise its empty log and typing set, broadcast the updated
room list to everyone, move the creator into the room and echo
`room_created` to the creator. -/
def handleCreateRoom (s : ServerState) (sid rid name : String)
    (isPrivate : Bool) : ServerState × List Emission :=
  match getUserInfo s sid with
  | none => (s, [])
  | some u =>
      let room : Room :=
        { id := rid, name := name,
          createdBy := some u.username, isPrivate := some isPrivate }
      let rooms2 := mapSet s.rooms rid room
      let u2 := { u with currentRoom := rid }
      ({ s with
          rooms := rooms2,
          messages := mapSet s.messages rid [],
          typingUsers := mapSet s.typingUsers rid [],
          users := mapSet s.users sid u2 },
       [ (Target.all, OutEvent.room_list (mapValues rooms2)),
         (Target.sock sid, OutEvent.room_created room) ])

/-- `file_uploaded` handler: no-op without identity; otherwise append the
file message to the room's log (creating the log on first use) and
broadcast `receive_message` to the room.  Unlike `send_message`, there is
NO capacity trim here. -/
def handleFileUploaded (s : ServerState) (sid mid fileData room : String) :
    ServerState × List Emission :=
  match getUserInfo s sid with
  | none => (s, [])
  | some u =>
      let msg := fileMessage u sid mid fileData room
      let log := (mapGet s.messages room).getD []
      ({ s with messages := mapSet s.messages room (log ++ [msg]) },
       [ broadcastToRoom room (OutEvent.receive_message msg) ])

/-- `update_status` handler: no-op without identity; otherwise update the
user's status and broadcast `user_status_changed` to everyone. -/
def handleUpdateStatus (s : ServerState) (sid status : String) :
    ServerState × List Emission :=
  match getUserInfo s sid with
  | none => (s, [])
  | some u =>
      ({ s with users := mapSet s.users sid { u with status := status } },
       [ (Target.all, OutEvent.user_status_changed sid u.username status) ])

/-- `disconnect` handler: does nothing when the socket has no identity;
otherwise broadcast `user_left` to the user's current room, delete the
username from EVERY room's typing set, delete the user, and emit the
updated user list to everyone. -/
def handleDisconnect (s : ServerState) (sid : String) :
    ServerState × List Emission :=
  match getUserInfo s sid with
  | none => (s, [])
  | some u =>
      let typing2 :=
        s.typingUsers.map (fun p => (p.1, setDelete p.2 u.username))
      let users2 := mapDelete s.users sid
      ({ s with typingUsers := typing2, users := users2 },
       [ broadcastToRoom u.currentRoom (OutEvent.user_left u u.currentRoom),
         (Target.all, OutEvent.user_list (mapValues users2)) ])

/-- The event router: dispatch on the event kind. -/
def handleEvent (s : ServerState) : Event → ServerState × List Emission
  | .user_join sid username avatar => handleUserJoin s sid username avatar
  | .send_message sid mid body room => handleSendMessage s sid mid body room
  | .typing sid isTyping room => handleTyping s sid isTyping room
  | .private_message sid mid toSid body => handlePrivateMessage s sid mid toSid body
  | .add_reaction sid messageId reaction room =>
      handleAddReaction s sid messageId reaction room
  | .mark_as_read sid messageId room => handleMarkAsRead s sid messageId room
  | .join_room sid roomId => handleJoinRoom s sid roomId
  | .create_room sid rid name isPrivate =>
      handleCreateRoom s sid rid name isPrivate
  | .file_uploaded sid mid fileData room =>
      handleFileUploaded s sid mid fileData room
  | .update_status sid status => handleUpdateStatus s sid status
  | .disconnect sid => handleDisconnect s sid

/-- The state after handling an event (emissions dropped). -/
def applyEvent (s : ServerState) (e : Event) : ServerState :=
  (handleEvent s e).1

/-- The emissions produced by handling an event. -/
def emitsOf (s : ServerState) (e : Event) : List Emission :=
  (handleEvent s e).2

/-- Run a sequence of events from a state. -/
def runEvents (s : ServerState) (es : List Event) : ServerState :=
  es.foldl applyEvent s

/-- A room's stored message log (empty when the room has no log). -/
def getLog (s : ServerState) (room : String) : List Message :=
  (mapGet s.messages room).getD []

/-- A room's typing set (empty when absent). -/
def getTyping (s : ServerState) (room : String) : List String :=
  (mapGet s.typingUsers room).getD []

/-- The read-receipt set stored for a message id (empty when absent). -/
def getReceipts (s : ServerState) (mid : String) : List String :=
  (mapGet s.readReceipts mid).getD []

/-- Look a message up by room and id, as the `add_reaction` handler does. -/
def findMessage (s : ServerState) (room mid : String) : Option Message :=
  (mapGet s.messages room).bind (fun l => l.find? (fun m => m.id == mid))

/-- Whether a room id is registered in the room registry. -/
def roomExists (s : ServerState) (room : String) : Prop :=
  (mapGet s.rooms room).isSome

instance (s : ServerState) (room : String) : Decidable (roomExists s room) := by
  unfold roomExists; infer_instance

/-- A message's reactor array for one reaction kind (empty when absent). -/
def getReactors (m : Message) (kind : String) : List String :=
  (mapGet m.reactions kind).getD []

/-! ### Association-list and set lemmas -/

theorem mapGet_mapSet {α : Type} (m : List (String × α)) (k k' : String) (v : α) :
    mapGet (mapSet m k v) k' = if k = k' then some v else mapGet m k' := by
  induction m with
  | nil => by_cases h : k = k' <;> simp [mapGet, mapSet, h]
  | cons p rest ih =>
      obtain ⟨k2, v2⟩ := p
      by_cases h : k2 = k
      · by_cases h2 : k = k'
        · simp [mapGet, mapSet, h, h2]
        · have h3 : ¬ k2 = k' := by rw [h]; exact h2
          simp [mapGet, mapSet, h, h2, h3]
      · by_cases h2 : k2 = k'
        · have h3 : ¬ k = k' := by
            rw [← h2]
            intro hh
            exact h hh.symm
          have h4 : ¬ k' = k := fun hh => h3 hh.symm
          simp [mapGet, mapSet, h, h2, h3, h4]
        · simp [mapGet, mapSet, h, h2, ih]

theorem mapGet_mapSet_self {α : Type} (m : List (String × α)) (k : String) (v : α) :
    mapGet (mapSet m k v) k = some v := by
  simp [mapGet_mapSet]

theorem mapGet_mapSet_ne {α : Type} (m : List (String × α)) (k k' : String) (v : α)
    (h : k ≠ k') : mapGet (mapSet m k v) k' = mapGet m k' := by
  simp [mapGet_mapSet, h]

theorem mapSet_mapSet {α : Type} (m : List (String × α)) (k : String) (v w : α) :
    mapSet (mapSet m k v) k w = mapSet m k w := by
  induction m with
  | nil => simp [mapSet]
  | cons p rest ih =>
      obtain ⟨k2, v2⟩ := p
      by_cases h : k2 = k
      · simp [mapSet, h]
      · simp [mapSet, h, ih]

theorem mem_mapSet {α : Type} (m : List (String × α)) (k : String) (v : α)
    (p : String × α) (hp : p ∈ mapSet m k v) : p ∈ m ∨ p = (k, v) := by
  induction m with
  | nil => simpa [mapSet] using hp
  | cons q rest ih =>
      obtain ⟨k2, v2⟩ := q
      by_cases h : k2 = k
      · simp [mapSet, h] at hp
        rcases hp with h1 | h1
        · exact Or.inr h1
        · exact Or.inl (List.mem_cons_of_mem _ h1)
      · simp [mapSet, h] at hp
        rcases hp with h1 | h1
        · exact Or.inl (by simp [h1])
        · rcases ih h1 with h2 | h2
          · exact Or.inl (List.mem_cons_of_mem _ h2)
          · exact Or.inr h2

theorem mem_mapDelete {α : Type} (m : List (String × α)) (k : String)
    (p : String × α) (hp : p ∈ mapDelete m k) : p ∈ m := by
  induction m with
  | nil => simp [mapDelete] at hp
  | cons q rest ih =>
      obtain ⟨k2, v2⟩ := q
      by_cases h : k2 = k
      · simp [mapDelete, h] at hp
        exact List.mem_cons_of_mem _ hp
      · simp [mapDelete, h] at hp
        rcases hp with h1 | h1
        · simp [h1]
        · exact List.mem_cons_of_mem _ (ih h1)

theorem mapGet_mem {α : Type} (m : List (String × α)) (k : String) (v : α)
    (h : mapGet m k = some v) : (k, v) ∈ m := by
  induction m with
  | nil => simp [mapGet] at h
  | cons q rest ih =>
      obtain ⟨k2, v2⟩ := q
      by_cases h2 : k2 = k
      · simp [mapGet, h2] at h
        simp [h2, h]
      · simp [mapGet, h2] at h
        exact List.mem_cons_of_mem _ (ih h)

theorem isSome_mapGet_mapSet {α : Type} (m : List (String × α)) (k k' : String)
    (v : α) (h : (mapGet m k').isSome) : (mapGet (mapSet m k v) k').isSome := by
  rw [mapGet_mapSet]
  split <;> simp [h]

theorem mapGet_map_value {α β : Type} (f : α → β) (m : List (String × α))
    (k : String) :
    mapGet (m.map (fun p => (p.1, f p.2))) k = (mapGet m k).map f := by
  induction m with
  | nil => simp [mapGet]
  | cons q rest ih =>
      obtain ⟨k2, v2⟩ := q
      by_cases h : k2 = k <;> simp [mapGet, h, ih]

theorem mem_setAdd_self (s : List String) (x : String) : x ∈ setAdd s x := by
  unfold setAdd
  split <;> simp [*]

theorem setAdd_of_mem {s : List String} {x : String} (h : x ∈ s) :
    setAdd s x = s := by
  simp [setAdd, h]

theorem not_mem_setDelete_self (s : List String) (x : String) :
    x ∉ setDelete s x := by
  simp [setDelete]

theorem length_replaceFirst (l : List Message) (mid : String) (m2 : Message) :
    (replaceFirst l mid m2).length = l.length := by
  induction l with
  | nil => rfl
  | cons x xs ih =>
      by_cases h : x.id = mid <;> simp [replaceFirst, h, ih]

theorem mem_replaceFirst (l : List Message) (mid : String) (m2 x : Message)
    (hx : x ∈ replaceFirst l mid m2) : x ∈ l ∨ x = m2 := by
  induction l with
  | nil => simp [replaceFirst] at hx
  | cons y ys ih =>
      by_cases h : y.id = mid
      · simp [replaceFirst, h] at hx
        rcases hx with h1 | h1
        · exact Or.inr h1
        · exact Or.inl (List.mem_cons_of_mem _ h1)
      · simp [replaceFirst, h] at hx
        rcases hx with h1 | h1
        · exact Or.inl (by simp [h1])
        · rcases ih h1 with h2 | h2
          · exact Or.inl (List.mem_cons_of_mem _ h2)
          · exact Or.inr h2

theorem find?_replaceFirst (l : List Message) (mid : String) (m2 msg : Message)
    (h : l.find? (fun m => m.id == mid) = some msg) (h2 : m2.id = mid) :
    (replaceFirst l mid m2).find? (fun m => m.id == mid) = some m2 := by
  induction l with
  | nil => simp at h
  | cons y ys ih =>
      by_cases hy : y.id = mid
      · have hb : (m2.id == mid) = true := by simpa using h2
        simp [replaceFirst, hy, List.find?_cons, hb]
      · have hb : (y.id == mid) = false := by simpa using hy
        rw [List.find?_cons, hb] at h
        simp only [replaceFirst, if_neg hy]
        rw [List.find?_cons, hb]
        exact ih h

theorem mem_toggleReaction_involution (l : List String) (u : String)
    (hnd : l.Nodup) (x : String) :
    x ∈ toggleReaction (toggleReaction l u) u ↔ x ∈ l := by
  by_cases hu : u ∈ l
  · have h1 : toggleReaction l u = l.erase u := by simp [toggleReaction, hu]
    have h2 : u ∉ l.erase u := by
      intro hmem
      exact ((hnd.mem_erase_iff).mp hmem).1 rfl
    rw [h1]
    have h3 : toggleReaction (l.erase u) u = l.erase u ++ [u] := by
      simp [toggleReaction, h2]
    rw [h3]
    simp only [List.mem_append, List.mem_singleton, hnd.mem_erase_iff]
    constructor
    · rintro (⟨hne, hmem⟩ | rfl)
      · exact hmem
      · exact hu
    · intro hmem
      by_cases hx : x = u
      · exact Or.inr hx
      · exact Or.inl ⟨hx, hmem⟩
  · have h1 : toggleReaction l u = l ++ [u] := by simp [toggleReaction, hu]
    rw [h1]
    have h2 : u ∈ l ++ [u] := by simp
    have h3 : toggleReaction (l ++ [u]) u = l := by
      simp only [toggleReaction, h2, if_pos]
      rw [List.erase_append_right _ hu]
      simp
    rw [h3]

theorem sliceLast_of_length_le {α : Type} (n : Nat) (l : List α)
    (h : l.length ≤ n) : sliceLast n l = l := by
  unfold sliceLast
  rw [Nat.sub_eq_zero_of_le h, List.drop_zero]

theorem length_sliceLast_of_lt {α : Type} (n : Nat) (l : List α)
    (h : n < l.length) : (sliceLast n l).length = n := by
  unfold sliceLast
  rw [List.length_drop]
  omega

theorem sliceLast_suffix {α : Type} (n : Nat) (l : List α) :
    sliceLast n l <:+ l :=
  List.drop_suffix _ _

theorem take_append_sliceLast {α : Type} (n : Nat) (l : List α) :
    l.take (l.length - n) ++ sliceLast n l = l :=
  List.take_append_drop _ _

/-! ### Concrete scenario states used by the witnesses -/

/-- The user record stored for socket `s1` joining as `alice`. -/
def uAlice : User :=
  { id := "s1", username := "alice", avatar := none,
    currentRoom := DEFAULT_ROOM, status := "online" }

/-- State after `alice` joins on socket `s1`. -/
def stJoined : ServerState :=
  runEvents initialState [Event.user_join "s1" "alice" none]

/-- State after `alice` joins and sends one text message `m1`. -/
def stOneMessage : ServerState :=
  runEvents initialState
    [Event.user_join "s1" "alice" none,
     Event.send_message "s1" "m1" "hi" "global"]

/-- State after `alice` joins and starts typing in two rooms. -/
def stTypingTwoRooms : ServerState :=
  runEvents initialState
    [Event.user_join "s1" "alice" none,
     Event.typing "s1" true "global",
     Event.typing "s1" true "room2"]

/-! ### Claims -/

/-- C7: for every event kind other than `user_join`, if the sending
connection has no registered identity, the handler silently no-ops: no
registry state changes and no event is emitted to any connection. -/
theorem c7_unregistered_silent_noop (s : ServerState) (e : Event)
    (hkind : e.isUserJoin = false) (hid : getUserInfo s e.sid = none) :
    handleEvent s e = (s, []) := by
  cases e <;>
    simp_all [Event.isUserJoin, Event.sid, handleEvent, handleUserJoin,
      handleSendMessage, handleTyping, handlePrivateMessage,
      handleAddReaction, handleMarkAsRead, handleJoinRoom, handleCreateRoom,
      handleFileUploaded, handleUpdateStatus, handleDisconnect]

/-- Witness for C7: a `send_message` from an unregistered socket leaves the
initial state unchanged and emits nothing. -/
theorem c7_witness :
    Event.isUserJoin (Event.send_message "s1" "m1" "hi" "global") = false ∧
    getUserInfo initialState
      (Event.sid (Event.send_message "s1" "m1" "hi" "global")) = none ∧
    handleEvent initialState (Event.send_message "s1" "m1" "hi" "global") =
      (initialState, []) :=
  ⟨rfl, rfl, c7_unregistered_silent_noop initialState _ rfl rfl⟩

/-- C9: an `add_reaction` event from a registered user naming a room with
no message log, or a message id not present in that room's log, silently
no-ops: the state is unchanged and nothing is emitted. -/
theorem c9_reaction_missing_message_noop (s : ServerState)
    (sid mid kind room : String) (u : User)
    (hid : getUserInfo s sid = some u)
    (hmiss : findMessage s room mid = none) :
    handleEvent s (Event.add_reaction sid mid kind room) = (s, []) := by
  cases hms : mapGet s.messages room with
  | none => simp [handleEvent, handleAddReaction, hid, hms]
  | some log =>
      have hfind : log.find? (fun m => m.id == mid) = none := by
        simpa [findMessage, hms] using hmiss
      simp [handleEvent, handleAddReaction, hid, hms, hfind]

/-- Witness for C9: reacting to the unknown message id `m2` after one
message `m1` was sent changes nothing and emits nothing. -/
theorem c9_witness :
    findMessage stOneMessage "global" "m2" = none ∧
    handleEvent stOneMessage (Event.add_reaction "s1" "m2" "like" "global") =
      (stOneMessage, []) :=
  ⟨by decide,
   c9_reaction_missing_message_noop stOneMessage "s1" "m2" "like" "global"
     uAlice (by decide) (by decide)⟩

/-- C10: a `mark_as_read` event from a registered user broadcasts a
`read_receipt` carrying the message id and the reader's identity to the
named room unconditionally (no message-existence check is performed), and
records the reader's socket id in the global receipt set for that id. -/
theorem c10_read_receipt_unconditional (s : ServerState)
    (sid mid room : String) (u : User) (hid : getUserInfo s sid = some u) :
    emitsOf s (Event.mark_as_read sid mid room) =
      [(Target.room room, OutEvent.read_receipt mid sid u.username)] ∧
    (applyEvent s (Event.mark_as_read sid mid room)).readReceipts =
      mapSet s.readReceipts mid (setAdd (getReceipts s mid) sid) := by
  constructor <;>
    simp [emitsOf, applyEvent, handleEvent, handleMarkAsRead, hid,
      broadcastToRoom, getReceipts]

/-- Witness for C10: the receipt is broadcast although no message with id
`mX` exists in any room's log. -/
theorem c10_witness :
    findMessage stJoined "global" "mX" = none ∧
    emitsOf stJoined (Event.mark_as_read "s1" "mX" "global") =
      [(Target.room "global", OutEvent.read_receipt "mX" "s1" "alice")] :=
  ⟨by decide,
   (c10_read_receipt_unconditional stJoined "s1" "mX" "global" uAlice
     (by decide)).1⟩

/-- C8: disconnecting a registered user removes that user's username from
every room's typing set. -/
theorem c8_disconnect_clears_typing (s : ServerState) (sid : String)
    (u : User) (hid : getUserInfo s sid = some u) (room : String) :
    u.username ∉ getTyping (applyEvent s (Event.disconnect sid)) room := by
  simp only [applyEvent, handleEvent, handleDisconnect, hid, getTyping]
  rw [mapGet_map_value (fun l => setDelete l u.username) s.typingUsers room]
  cases hm : mapGet s.typingUsers room <;> simp [hm, setDelete]

/-- Witness for C8: `alice` is typing in two rooms simultaneously; after
her socket disconnects she is in neither room's typing set. -/
theorem c8_witness :
    "alice" ∈ getTyping stTypingTwoRooms "global" ∧
    "alice" ∈ getTyping stTypingTwoRooms "room2" ∧
    "alice" ∉ getTyping
      (applyEvent stTypingTwoRooms (Event.disconnect "s1")) "global" ∧
    "alice" ∉ getTyping
      (applyEvent stTypingTwoRooms (Event.disconnect "s1")) "room2" :=
  ⟨by decide, by decide,
   c8_disconnect_clears_typing stTypingTwoRooms "s1" uAlice (by decide) "global",
   c8_disconnect_clears_typing stTypingTwoRooms "s1" uAlice (by decide) "room2"⟩

/-- C4 counterexample: a second `user_join` on socket `s1` is not
rejected; it overwrites the bound identity (`a` becomes `b`). -/
theorem c4_counterexample :
    getUserInfo (runEvents initialState
        [Event.user_join "s1" "a" none]) "s1" =
      some { id := "s1", username := "a", avatar := none,
             currentRoom := "global", status := "online" } ∧
    getUserInfo (runEvents initialState
        [Event.user_join "s1" "a" none, Event.user_join "s1" "b" none]) "s1" =
      some { id := "s1", username := "b", avatar := none,
             currentRoom := "global", status := "online" } := by
  decide

/-- C4 amended: a `user_join` for a connection id that already has an
identity bound does not fail; it succeeds and overwrites the mapping with
a fresh identity built from the new payload. -/
theorem c4_rejoin_overwrites_identity (s : ServerState) (sid : String)
    (u : User) (_hid : getUserInfo s sid = some u)
    (name2 : String) (av2 : Option String) :
    getUserInfo (applyEvent s (Event.user_join sid name2 av2)) sid =
      some { id := sid, username := name2, avatar := av2,
             currentRoom := DEFAULT_ROOM, status := "online" } := by
  simp [applyEvent, handleEvent, handleUserJoin, getUserInfo,
    mapGet_mapSet_self]

/-- Witness for the amended C4: rejoining socket `s1` as `b` overwrites
the identity `alice`. -/
theorem c4_witness :
    getUserInfo (applyEvent stJoined (Event.user_join "s1" "b" none)) "s1" =
      some { id := "s1", username := "b", avatar := none,
             currentRoom := DEFAULT_ROOM, status := "online" } :=
  c4_rejoin_overwrites_identity stJoined "s1" uAlice (by decide) "b" none

/-- State after `alice` joins, sends `m1`, and marks `m1` as read. -/
def stMarkedRead : ServerState :=
  runEvents initialState
    [Event.user_join "s1" "alice" none,
     Event.send_message "s1" "m1" "hi" "global",
     Event.mark_as_read "s1" "m1" "global"]

/-- C3 counterexample: after `alice` (socket `s1`) marks message `m1` as
read, the stored message's own read-by set is still empty — the handler
instead added the socket id `s1`, not the username `alice`, to a global
receipt registry keyed by message id. -/
theorem c3_counterexample :
    (findMessage stMarkedRead "global" "m1").map Message.readBy =
      some (some []) ∧
    getReceipts stMarkedRead "m1" = ["s1"] ∧
    "alice" ∉ getReceipts stMarkedRead "m1" := by
  decide

/-- C3 amended: `mark_as_read` from a registered user adds the user's
socket id (not the username) to the global read-receipt set for the given
message id, leaves every stored message (and its `readBy` field)
untouched, and a second identical `mark_as_read` leaves the receipt
registry unchanged (true idempotence, since adding to a set is a no-op
when the element is present). -/
theorem c3_mark_read_idempotent (s : ServerState) (sid mid room : String)
    (u : User) (hid : getUserInfo s sid = some u) :
    getReceipts (applyEvent s (Event.mark_as_read sid mid room)) mid =
      setAdd (getReceipts s mid) sid ∧
    (applyEvent s (Event.mark_as_read sid mid room)).messages = s.messages ∧
    (applyEvent (applyEvent s (Event.mark_as_read sid mid room))
        (Event.mark_as_read sid mid room)).readReceipts =
      (applyEvent s (Event.mark_as_read sid mid room)).readReceipts := by
  refine ⟨?_, ?_, ?_⟩
  · simp [applyEvent, handleEvent, handleMarkAsRead, hid, getReceipts,
      mapGet_mapSet_self]
  · simp [applyEvent, handleEvent, handleMarkAsRead, hid]
  · have hidem : setAdd (setAdd (getReceipts s mid) sid) sid =
        setAdd (getReceipts s mid) sid :=
      setAdd_of_mem (mem_setAdd_self _ _)
    simp only [applyEvent, handleEvent, handleMarkAsRead, hid]
    have hid2 : getUserInfo
        { s with
            readReceipts := mapSet s.readReceipts mid
              (setAdd ((mapGet s.readReceipts mid).getD []) sid) } sid =
        some u := hid
    simp only [hid2]
    simp [mapGet_mapSet_self, mapSet_mapSet]
    rw [show setAdd (setAdd ((mapGet s.readReceipts mid).getD []) sid) sid =
        setAdd ((mapGet s.readReceipts mid).getD []) sid from
      setAdd_of_mem (mem_setAdd_self _ _)]

/-- Witness for the amended C3: marking `m1` read twice on socket `s1`
leaves the receipt registry as after the first call. -/
theorem c3_witness :
    getReceipts (applyEvent stOneMessage
        (Event.mark_as_read "s1" "m1" "global")) "m1" =
      setAdd (getReceipts stOneMessage "m1") "s1" ∧
    (applyEvent stOneMessage
        (Event.mark_as_read "s1" "m1" "global")).messages =
      stOneMessage.messages ∧
    (applyEvent (applyEvent stOneMessage
        (Event.mark_as_read "s1" "m1" "global"))
        (Event.mark_as_read "s1" "m1" "global")).readReceipts =
      (applyEvent stOneMessage
        (Event.mark_as_read "s1" "m1" "global")).readReceipts :=
  c3_mark_read_idempotent stOneMessage "s1" "m1" "global" uAlice (by decide)

/-- C6: the history hydration unicast on `user_join` (for the default
room) and on `join_room` (for the target room) is the last-50 window of
the room's log: all messages in append order when the log holds at most
50, exactly the final 50 (in order, decomposable as a suffix) when it
holds more, and empty for a room with no messages. -/
theorem c6_history_hydration (s : ServerState) (sid roomId username : String)
    (av : Option String) (u : User) (hid : getUserInfo s sid = some u) :
    ((Target.sock sid, OutEvent.message_history roomId
        (sliceLast 50 (getLog s roomId))) ∈
      emitsOf s (Event.join_room sid roomId)) ∧
    ((Target.sock sid, OutEvent.message_history DEFAULT_ROOM
        (sliceLast 50 (getLog s DEFAULT_ROOM))) ∈
      emitsOf s (Event.user_join sid username av)) ∧
    (∀ l : List Message, l.length ≤ 50 → sliceLast 50 l = l) ∧
    (∀ l : List Message, 50 < l.length →
      (sliceLast 50 l).length = 50 ∧
      l.take (l.length - 50) ++ sliceLast 50 l = l) ∧
    sliceLast 50 ([] : List Message) = [] := by
  refine ⟨?_, ?_, ?_, ?_, rfl⟩
  · simp [emitsOf, handleEvent, handleJoinRoom, hid, getLog, broadcastToRoom]
  · simp [emitsOf, handleEvent, handleUserJoin, getLog, broadcastToRoom]
  · exact fun l h => sliceLast_of_length_le 50 l h
  · exact fun l h => ⟨length_sliceLast_of_lt 50 l h, take_append_sliceLast 50 l⟩

/-- Witness for C6: rejoining `global` after one message hydrates with the
last-50 window of the one-message log. -/
theorem c6_witness :
    ((Target.sock "s1", OutEvent.message_history "global"
        (sliceLast 50 (getLog stOneMessage "global"))) ∈
      emitsOf stOneMessage (Event.join_room "s1" "global")) ∧
    sliceLast 50 ([] : List Message) = [] :=
  ⟨(c6_history_hydration stOneMessage "s1" "global" "bob" none uAlice
      (by decide)).1,
   (c6_history_hydration stOneMessage "s1" "global" "bob" none uAlice
      (by decide)).2.2.2.2⟩

/-- The message produced by one reaction toggle inside `add_reaction`:
the reactor array for the toggled kind is initialised to `[]` when
missing, then the username is removed when present and appended when
absent. -/
def reactedMessage (msg : Message) (kind un : String) : Message :=
  { msg with
      reactions :=
        mapSet msg.reactions kind (toggleReaction (getReactors msg kind) un) }

theorem getReactors_reactedMessage (msg : Message) (kind un : String) :
    getReactors (reactedMessage msg kind un) kind =
      toggleReaction (getReactors msg kind) un := by
  simp [getReactors, reactedMessage, mapGet_mapSet_self]

theorem reactedMessage_id (msg : Message) (kind un : String) :
    (reactedMessage msg kind un).id = msg.id := rfl

/-- One `add_reaction` step from a registered user on an existing message
replaces the found message by its toggled version in the room's log. -/
theorem addReaction_step (s : ServerState) (sid mid kind room : String)
    (u : User) (log : List Message) (msg : Message)
    (hid : getUserInfo s sid = some u)
    (hlog : mapGet s.messages room = some log)
    (hfind : log.find? (fun m => m.id == mid) = some msg) :
    applyEvent s (Event.add_reaction sid mid kind room) =
      { s with
          messages := mapSet s.messages room
            (replaceFirst log mid (reactedMessage msg kind u.username)) } := by
  simp [applyEvent, handleEvent, handleAddReaction, hid, hlog, hfind,
    reactedMessage, getReactors]

/-- C5: reaction toggling is an involution per (message, reaction kind,
username): two identical `add_reaction` events from a registered user
return the message's reactor set for that kind to its prior membership
(the reactor array, built only by toggles, is duplicate-free). -/
theorem c5_reaction_toggle_involution (s : ServerState)
    (sid mid kind room : String) (u : User) (log : List Message)
    (msg : Message) (hid : getUserInfo s sid = some u)
    (hlog : mapGet s.messages room = some log)
    (hfind : log.find? (fun m => m.id == mid) = some msg)
    (hnd : (getReactors msg kind).Nodup) :
    ∃ msg2,
      findMessage
        (applyEvent (applyEvent s (Event.add_reaction sid mid kind room))
          (Event.add_reaction sid mid kind room)) room mid = some msg2 ∧
      ∀ x, x ∈ getReactors msg2 kind ↔ x ∈ getReactors msg kind := by
  have hmsgid : msg.id = mid := by simpa using List.find?_some hfind
  have hid1 : (reactedMessage msg kind u.username).id = mid := by
    rw [reactedMessage_id]; exact hmsgid
  have hfind1 : (replaceFirst log mid (reactedMessage msg kind u.username)).find?
      (fun m => m.id == mid) = some (reactedMessage msg kind u.username) :=
    find?_replaceFirst log mid _ msg hfind hid1
  rw [addReaction_step s sid mid kind room u log msg hid hlog hfind]
  have hidB : getUserInfo
      { s with
          messages := mapSet s.messages room
            (replaceFirst log mid (reactedMessage msg kind u.username)) } sid =
      some u := hid
  have hlogB : mapGet
      ({ s with
          messages := mapSet s.messages room
            (replaceFirst log mid (reactedMessage msg kind u.username)) }).messages
      room = some (replaceFirst log mid (reactedMessage msg kind u.username)) :=
    mapGet_mapSet_self _ _ _
  rw [addReaction_step _ sid mid kind room u _ _ hidB hlogB hfind1]
  refine ⟨reactedMessage (reactedMessage msg kind u.username) kind u.username,
    ?_, ?_⟩
  · have hid2 : (reactedMessage (reactedMessage msg kind u.username) kind
        u.username).id = mid := by
      rw [reactedMessage_id, reactedMessage_id]; exact hmsgid
    unfold findMessage
    simp only [mapGet_mapSet_self, Option.bind_some]
    exact find?_replaceFirst _ mid _ _ hfind1 hid2
  · intro x
    rw [getReactors_reactedMessage, getReactors_reactedMessage]
    exact mem_toggleReaction_involution (getReactors msg kind) u.username hnd x

/-- One join followed by 101 file-upload messages into the default room. -/
def c1Events : List Event :=
  Event.user_join "s1" "a" none ::
    List.replicate 101 (Event.file_uploaded "s1" "m" "f" "global")

set_option maxRecDepth 10000 in
/-- C1 counterexample: the `file_uploaded` handler appends without the
100-message trim, so 101 file messages leave the room log at 101. -/
theorem c1_counterexample :
    (getLog (runEvents initialState c1Events) "global").length = 101 := by
  decide

/-- No handler except `file_uploaded` can push a room log past 100:
`send_message` trims after appending and every other handler either
leaves the logs unchanged or installs an empty log. -/
theorem logsBounded_applyEvent (s : ServerState) (e : Event)
    (hb : ∀ room, (getLog s room).length ≤ 100)
    (hf : e.isFileUploaded = false) :
    ∀ room, (getLog (applyEvent s e) room).length ≤ 100 := by
  cases e with
  | user_join sid username avatar =>
      intro room
      simpa [applyEvent, handleEvent, handleUserJoin, getLog] using hb room
  | send_message sid mid body room2 =>
      intro room
      cases hu : getUserInfo s sid with
      | none =>
          simpa [applyEvent, handleEvent, handleSendMessage, hu, getLog]
            using hb room
      | some u =>
          simp only [applyEvent, handleEvent, handleSendMessage, hu, getLog]
          by_cases hr : room2 = room
          · subst hr
            rw [mapGet_mapSet_self, Option.getD_some]
            by_cases hlen :
                ((mapGet s.messages room2).getD [] ++
                  [textMessage u sid mid body room2]).length > 100
            · rw [if_pos hlen, List.length_tail]
              have h1 := hb room2
              simp only [getLog] at h1
              simp only [List.length_append, List.length_singleton] at hlen ⊢
              omega
            · rw [if_neg hlen]
              omega
          · rw [mapGet_mapSet_ne _ _ _ _ hr]
            exact hb room
  | typing sid isTyping room2 =>
      intro room
      cases hu : getUserInfo s sid <;>
        simpa [applyEvent, handleEvent, handleTyping, hu, getLog] using hb room
  | private_message sid mid toSid body =>
      intro room
      cases hu : getUserInfo s sid <;>
        simpa [applyEvent, handleEvent, handlePrivateMessage, hu, getLog]
          using hb room
  | add_reaction sid mid kind room2 =>
      intro room
      cases hu : getUserInfo s sid with
      | none =>
          simpa [applyEvent, handleEvent, handleAddReaction, hu, getLog]
            using hb room
      | some u =>
          cases hms : mapGet s.messages room2 with
          | none =>
              simpa [applyEvent, handleEvent, handleAddReaction, hu, hms,
                getLog] using hb room
          | some log =>
              cases hfind : log.find? (fun m => m.id == mid) with
              | none =>
                  simpa [applyEvent, handleEvent, handleAddReaction, hu, hms,
                    hfind, getLog] using hb room
              | some msg =>
                  simp only [applyEvent, handleEvent, handleAddReaction, hu,
                    hms, hfind, getLog]
                  by_cases hr : room2 = room
                  · subst hr
                    rw [mapGet_mapSet_self, Option.getD_some,
                      length_replaceFirst]
                    have h1 := hb room2
                    simp only [getLog, hms, Option.getD_some] at h1
                    exact h1
                  · rw [mapGet_mapSet_ne _ _ _ _ hr]
                    exact hb room
  | mark_as_read sid mid room2 =>
      intro room
      cases hu : getUserInfo s sid <;>
        simpa [applyEvent, handleEvent, handleMarkAsRead, hu, getLog]
          using hb room
  | join_room sid roomId =>
      intro room
      cases hu : getUserInfo s sid <;>
        simpa [applyEvent, handleEvent, handleJoinRoom, hu, getLog]
          using hb room
  | create_room sid rid name isPrivate =>
      intro room
      cases hu : getUserInfo s sid with
      | none =>
          simpa [applyEvent, handleEvent, handleCreateRoom, hu, getLog]
            using hb room
      | some u =>
          simp only [applyEvent, handleEvent, handleCreateRoom, hu, getLog]
          by_cases hr : rid = room
          · subst hr
            rw [mapGet_mapSet_self, Option.getD_some]
            simp
          · rw [mapGet_mapSet_ne _ _ _ _ hr]
            exact hb room
  | file_uploaded sid mid fileData room2 =>
      simp [Event.isFileUploaded] at hf
  | update_status sid status =>
      intro room
      cases hu : getUserInfo s sid <;>
        simpa [applyEvent, handleEvent, handleUpdateStatus, hu, getLog]
          using hb room
  | disconnect sid =>
      intro room
      cases hu : getUserInfo s sid <;>
        simpa [applyEvent, handleEvent, handleDisconnect, hu, getLog]
          using hb room

/-- Bound propagated along a run of file-free events. -/
theorem logsBounded_runEvents (es : List Event) :
    ∀ s : ServerState, (∀ room, (getLog s room).length ≤ 100) →
    (∀ e ∈ es, e.isFileUploaded = false) →
    ∀ room, (getLog (runEvents s es) room).length ≤ 100 := by
  induction es with
  | nil =>
      intro s hb _
      simpa [runEvents] using hb
  | cons e rest ih =>
      intro s hb hf
      have h1 := logsBounded_applyEvent s e hb (hf e (by simp))
      have h2 := ih (applyEvent s e) h1 (fun x hx => hf x (by simp [hx]))
      simpa [runEvents] using h2

/-- C1 amended: for event sequences that contain no `file_uploaded`
events, every room log stays at 100 messages or fewer, and each
`send_message` append keeps a suffix of the old log plus the new message
(the oldest message alone is evicted, preserving append order).  The
original claim fails for `file_uploaded`, which appends without the
trim. -/
theorem c1_bounded_log_fifo :
    (∀ es : List Event, (∀ e ∈ es, e.isFileUploaded = false) →
      ∀ room, (getLog (runEvents initialState es) room).length ≤ 100) ∧
    (∀ (s : ServerState) (u : User) (sid mid body room : String),
      getUserInfo s sid = some u →
      getLog (applyEvent s (Event.send_message sid mid body room)) room <:+
        getLog s room ++ [textMessage u sid mid body room]) := by
  constructor
  · intro es hf room
    refine logsBounded_runEvents es initialState ?_ hf room
    intro r
    by_cases h : DEFAULT_ROOM = r <;>
      simp [getLog, initialState, mapGet, h]
  · intro s u sid mid body room hu
    simp only [applyEvent, handleEvent, handleSendMessage, hu, getLog]
    rw [mapGet_mapSet_self, Option.getD_some]
    split
    · exact List.tail_suffix _
    · exact List.suffix_refl _

/-- One join followed by 101 text messages into the default room. -/
def c1TextEvents : List Event :=
  Event.user_join "s1" "a" none ::
    List.replicate 101 (Event.send_message "s1" "m" "hi" "global")

set_option maxRecDepth 10000 in
/-- Witness for the amended C1: 101 trimmed text appends respect the
bound, and a single append on the one-message state is a suffix of the
extended log. -/
theorem c1_witness :
    (getLog (runEvents initialState c1TextEvents) "global").length ≤ 100 ∧
    getLog (applyEvent stOneMessage
        (Event.send_message "s1" "m2" "yo" "global")) "global" <:+
      getLog stOneMessage "global" ++
        [textMessage uAlice "s1" "m2" "yo" "global"] :=
  ⟨c1_bounded_log_fifo.1 c1TextEvents (by decide) "global",
   c1_bounded_log_fifo.2 stOneMessage uAlice "s1" "m2" "yo" "global"
     (by decide)⟩

/-- Witness for C5: toggling `like` twice on message `m1` restores its
(empty) reactor set membership. -/
theorem c5_witness :
    ∃ msg2,
      findMessage
        (applyEvent (applyEvent stOneMessage
            (Event.add_reaction "s1" "m1" "like" "global"))
          (Event.add_reaction "s1" "m1" "like" "global")) "global" "m1" =
        some msg2 ∧
      ∀ x, x ∈ getReactors msg2 "like" ↔
        x ∈ getReactors (textMessage uAlice "s1" "m1" "hi" "global") "like" :=
  c5_reaction_toggle_involution stOneMessage "s1" "m1" "like" "global" uAlice
    [textMessage uAlice "s1" "m1" "hi" "global"]
    (textMessage uAlice "s1" "m1" "hi" "global")
    (by decide) (by decide) (by decide) (by decide)

/-- The referential-integrity invariant of C2: the default room is
registered, every user's `currentRoom` names a registered room, and every
stored message's `room` field names a registered room. -/
def stateInv (s : ServerState) : Prop :=
  roomExists s DEFAULT_ROOM ∧
  (∀ p ∈ s.users, roomExists s p.2.currentRoom) ∧
  (∀ q ∈ s.messages, ∀ m ∈ q.2, roomExists s m.room)

instance (s : ServerState) : Decidable (stateInv s) := by
  unfold stateInv
  infer_instance

/-- An event names only registered rooms at the points where a handler
stores a room reference without consulting the room registry
(`send_message`, `file_uploaded` and `join_room` perform no existence
check). -/
def goodEvent (s : ServerState) : Event → Prop
  | .send_message _ _ _ room => roomExists s room
  | .file_uploaded _ _ _ room => roomExists s room
  | .join_room _ roomId => roomExists s roomId
  | _ => True

instance (s : ServerState) (e : Event) : Decidable (goodEvent s e) := by
  cases e <;> unfold goodEvent <;> infer_instance

/-- Every event of the trace is `goodEvent` in the state it is handled
in. -/
def goodTrace : ServerState → List Event → Prop
  | _, [] => True
  | s, e :: es => goodEvent s e ∧ goodTrace (applyEvent s e) es

instance instDecGoodTrace : (s : ServerState) → (es : List Event) →
    Decidable (goodTrace s es)
  | _, [] => isTrue trivial
  | s, e :: es =>
      haveI : Decidable (goodTrace (applyEvent s e) es) :=
        instDecGoodTrace (applyEvent s e) es
      inferInstanceAs
        (Decidable (goodEvent s e ∧ goodTrace (applyEvent s e) es))

/-- The room registry only grows: no handler deletes a room. -/
theorem roomExists_applyEvent (s : ServerState) (e : Event) (r : String)
    (h : roomExists s r) : roomExists (applyEvent s e) r := by
  cases e with
  | user_join sid username avatar =>
      simpa [applyEvent, handleEvent, handleUserJoin, roomExists] using h
  | send_message sid mid body room =>
      cases hu : getUserInfo s sid <;>
        simpa [applyEvent, handleEvent, handleSendMessage, hu, roomExists]
          using h
  | typing sid isTyping room =>
      cases hu : getUserInfo s sid <;>
        simpa [applyEvent, handleEvent, handleTyping, hu, roomExists] using h
  | private_message sid mid toSid body =>
      cases hu : getUserInfo s sid <;>
        simpa [applyEvent, handleEvent, handlePrivateMessage, hu, roomExists]
          using h
  | add_reaction sid mid kind room =>
      cases hu : getUserInfo s sid with
      | none =>
          simpa [applyEvent, handleEvent, handleAddReaction, hu, roomExists]
            using h
      | some u =>
          cases hms : mapGet s.messages room with
          | none =>
              simpa [applyEvent, handleEvent, handleAddReaction, hu, hms,
                roomExists] using h
          | some log =>
              cases hfind : log.find? (fun m => m.id == mid) <;>
                simpa [applyEvent, handleEvent, handleAddReaction, hu, hms,
                  hfind, roomExists] using h
  | mark_as_read sid mid room =>
      cases hu : getUserInfo s sid <;>
        simpa [applyEvent, handleEvent, handleMarkAsRead, hu, roomExists]
          using h
  | join_room sid roomId =>
      cases hu : getUserInfo s sid <;>
        simpa [applyEvent, handleEvent, handleJoinRoom, hu, roomExists]
          using h
  | create_room sid rid name isPrivate =>
      cases hu : getUserInfo s sid with
      | none =>
          simpa [applyEvent, handleEvent, handleCreateRoom, hu, roomExists]
            using h
      | some u =>
          simp only [applyEvent, handleEvent, handleCreateRoom, hu,
            roomExists] at h ⊢
          exact isSome_mapGet_mapSet _ _ _ _ h
  | file_uploaded sid mid fileData room =>
      cases hu : getUserInfo s sid <;>
        simpa [applyEvent, handleEvent, handleFileUploaded, hu, roomExists]
          using h
  | update_status sid status =>
      cases hu : getUserInfo s sid <;>
        simpa [applyEvent, handleEvent, handleUpdateStatus, hu, roomExists]
          using h
  | disconnect sid =>
      cases hu : getUserInfo s sid <;>
        simpa [applyEvent, handleEvent, handleDisconnect, hu, roomExists]
          using h

/-- A message found in some room's log references an existing room,
assuming the message part of the invariant. -/
theorem roomExists_of_mem_getLog (s : ServerState)
    (hmsgs : ∀ q ∈ s.messages, ∀ m ∈ q.2, roomExists s m.room)
    (room : String) (m : Message) (hm : m ∈ getLog s room) :
    roomExists s m.room := by
  unfold getLog at hm
  cases hms : mapGet s.messages room with
  | none => simp [hms] at hm
  | some log =>
      simp only [hms, Option.getD_some] at hm
      exact hmsgs (room, log) (mapGet_mem _ _ _ hms) m hm

/-- One step preserves the referential-integrity invariant when the event
names only registered rooms. -/
theorem stateInv_applyEvent (s : ServerState) (e : Event)
    (hinv : stateInv s) (hg : goodEvent s e) : stateInv (applyEvent s e) := by
  obtain ⟨hdef, husers, hmsgs⟩ := hinv
  cases e with
  | user_join sid username avatar =>
      simp only [applyEvent, handleEvent, handleUserJoin]
      refine ⟨hdef, ?_, hmsgs⟩
      intro p hp
      rcases mem_mapSet _ _ _ _ hp with hold | hnew
      · exact husers p hold
      · rw [hnew]
        exact hdef
  | send_message sid mid body room =>
      cases hu : getUserInfo s sid with
      | none =>
          simp only [applyEvent, handleEvent, handleSendMessage, hu]
          exact ⟨hdef, husers, hmsgs⟩
      | some u =>
          simp only [applyEvent, handleEvent, handleSendMessage, hu]
          refine ⟨hdef, husers, ?_⟩
          intro q hq m hm
          rcases mem_mapSet _ _ _ _ hq with hold | hnew
          · exact hmsgs q hold m hm
          · rw [hnew] at hm
            have hm2 : m ∈ (mapGet s.messages room).getD [] ++
                [textMessage u sid mid body room] := by
              revert hm
              split
              · exact fun hm => List.mem_of_mem_tail hm
              · exact fun hm => hm
            rcases List.mem_append.mp hm2 with hlog | hmsg
            · exact roomExists_of_mem_getLog s hmsgs room m hlog
            · rw [List.mem_singleton.mp hmsg]
              exact hg
  | typing sid isTyping room =>
      cases hu : getUserInfo s sid <;>
        · simp only [applyEvent, handleEvent, handleTyping, hu]
          exact ⟨hdef, husers, hmsgs⟩
  | private_message sid mid toSid body =>
      cases hu : getUserInfo s sid <;>
        · simp only [applyEvent, handleEvent, handlePrivateMessage, hu]
          exact ⟨hdef, husers, hmsgs⟩
  | add_reaction sid mid kind room =>
      cases hu : getUserInfo s sid with
      | none =>
          simp only [applyEvent, handleEvent, handleAddReaction, hu]
          exact ⟨hdef, husers, hmsgs⟩
      | some u =>
          cases hms : mapGet s.messages room with
          | none =>
              simp only [applyEvent, handleEvent, handleAddReaction, hu, hms]
              exact ⟨hdef, husers, hmsgs⟩
          | some log =>
              cases hfind : log.find? (fun m => m.id == mid) with
              | none =>
                  simp only [applyEvent, handleEvent, handleAddReaction, hu,
                    hms, hfind]
                  exact ⟨hdef, husers, hmsgs⟩
              | some msg =>
                  simp only [applyEvent, handleEvent, handleAddReaction, hu,
                    hms, hfind]
                  refine ⟨hdef, husers, ?_⟩
                  intro q hq m hm
                  rcases mem_mapSet _ _ _ _ hq with hold | hnew
                  · exact hmsgs q hold m hm
                  · rw [hnew] at hm
                    rcases mem_replaceFirst _ _ _ _ hm with hlog | hm2
                    · exact hmsgs (room, log) (mapGet_mem _ _ _ hms) m hlog
                    · have hmsgmem : msg ∈ log :=
                        List.mem_of_find?_eq_some hfind
                      have : m.room = msg.room := by rw [hm2]
                      rw [this]
                      exact hmsgs (room, log) (mapGet_mem _ _ _ hms) msg
                        hmsgmem
  | mark_as_read sid mid room =>
      cases hu : getUserInfo s sid <;>
        · simp only [applyEvent, handleEvent, handleMarkAsRead, hu]
          exact ⟨hdef, husers, hmsgs⟩
  | join_room sid roomId =>
      cases hu : getUserInfo s sid with
      | none =>
          simp only [applyEvent, handleEvent, handleJoinRoom, hu]
          exact ⟨hdef, husers, hmsgs⟩
      | some u =>
          simp only [applyEvent, handleEvent, handleJoinRoom, hu]
          refine ⟨hdef, ?_, hmsgs⟩
          intro p hp
          rcases mem_mapSet _ _ _ _ hp with hold | hnew
          · exact husers p hold
          · rw [hnew]
            exact hg
  | create_room sid rid name isPrivate =>
      cases hu : getUserInfo s sid with
      | none =>
          simp only [applyEvent, handleEvent, handleCreateRoom, hu]
          exact ⟨hdef, husers, hmsgs⟩
      | some u =>
          simp only [applyEvent, handleEvent, handleCreateRoom, hu]
          refine ⟨?_, ?_, ?_⟩
          · exact isSome_mapGet_mapSet _ _ _ _ hdef
          · intro p hp
            rcases mem_mapSet _ _ _ _ hp with hold | hnew
            · exact isSome_mapGet_mapSet _ _ _ _ (husers p hold)
            · rw [hnew]
              show (mapGet (mapSet s.rooms rid _) rid).isSome
              rw [mapGet_mapSet_self]
              rfl
          · intro q hq m hm
            rcases mem_mapSet _ _ _ _ hq with hold | hnew
            · exact isSome_mapGet_mapSet _ _ _ _ (hmsgs q hold m hm)
            · rw [hnew] at hm
              simp at hm
  | file_uploaded sid mid fileData room =>
      cases hu : getUserInfo s sid with
      | none =>
          simp only [applyEvent, handleEvent, handleFileUploaded, hu]
          exact ⟨hdef, husers, hmsgs⟩
      | some u =>
          simp only [applyEvent, handleEvent, handleFileUploaded, hu]
          refine ⟨hdef, husers, ?_⟩
          intro q hq m hm
          rcases mem_mapSet _ _ _ _ hq with hold | hnew
          · exact hmsgs q hold m hm
          · rw [hnew] at hm
            rcases List.mem_append.mp hm with hlog | hmsg
            · exact roomExists_of_mem_getLog s hmsgs room m hlog
            · rw [List.mem_singleton.mp hmsg]
              exact hg
  | update_status sid status =>
      cases hu : getUserInfo s sid with
      | none =>
          simp only [applyEvent, handleEvent, handleUpdateStatus, hu]
          exact ⟨hdef, husers, hmsgs⟩
      | some u =>
          simp only [applyEvent, handleEvent, handleUpdateStatus, hu]
          refine ⟨hdef, ?_, hmsgs⟩
          intro p hp
          rcases mem_mapSet _ _ _ _ hp with hold | hnew
          · exact husers p hold
          · rw [hnew]
            exact husers (sid, u) (mapGet_mem _ _ _ hu)
  | disconnect sid =>
      cases hu : getUserInfo s sid with
      | none =>
          simp only [applyEvent, handleEvent, handleDisconnect, hu]
          exact ⟨hdef, husers, hmsgs⟩
      | some u =>
          simp only [applyEvent, handleEvent, handleDisconnect, hu]
          refine ⟨hdef, ?_, hmsgs⟩
          intro p hp
          exact husers p (mem_mapDelete _ _ _ hp)

/-- The invariant propagated along a good trace. -/
theorem stateInv_runEvents (es : List Event) :
    ∀ s : ServerState, stateInv s → goodTrace s es →
    stateInv (runEvents s es) := by
  induction es with
  | nil =>
      intro s h _
      simpa [runEvents] using h
  | cons e rest ih =>
      intro s h hg
      have h2 := ih (applyEvent s e) (stateInv_applyEvent s e h hg.1) hg.2
      simpa [runEvents] using h2

/-- C2 counterexample: `join_room` performs no room-existence check, so
after joining the unregistered room id `nowhere`, the user's
`currentRoom` references a room absent from the registry. -/
theorem c2_counterexample :
    getUserInfo (runEvents initialState
        [Event.user_join "s1" "a" none,
         Event.join_room "s1" "nowhere"]) "s1" =
      some { id := "s1", username := "a", avatar := none,
             currentRoom := "nowhere", status := "online" } ∧
    ¬ roomExists (runEvents initialState
        [Event.user_join "s1" "a" none,
         Event.join_room "s1" "nowhere"]) "nowhere" := by
  decide

/-- C2 amended: the referential-integrity invariant (every registered
connection's `currentRoom` and every stored message's `room` field name a
registered room) holds in every state reached from process start by event
sequences in which each `send_message`, `file_uploaded` and `join_room`
names a room registered at that point; those three handlers perform no
existence check, so an unregistered room id breaks the invariant. -/
theorem c2_referential_integrity (es : List Event)
    (hg : goodTrace initialState es) :
    stateInv (runEvents initialState es) :=
  stateInv_runEvents es initialState (by decide) hg

/-- A good trace: join, create a room, switch to it, message it, switch
back to the default room. -/
def c2GoodEvents : List Event :=
  [Event.user_join "s1" "alice" none,
   Event.create_room "s1" "r1" "devs" false,
   Event.join_room "s1" "r1",
   Event.send_message "s1" "m1" "hi" "r1",
   Event.join_room "s1" "global"]

/-- Witness for the amended C2 on a concrete good trace. -/
theorem c2_witness :
    goodTrace initialState c2GoodEvents ∧
    stateInv (runEvents initialState c2GoodEvents) :=
  ⟨by decide, c2_referential_integrity c2GoodEvents (by decide)⟩

end SocketChat
